import Mathlib

/-!
Verification of the extraction pipeline of the campusnet-cli repository:
a shallow embedding of `campusnet.py` (field normalization, the course
search row classifier, the detail key/value scanner, and the response
cache of `find_courses` / `class_details`), together with theorems about
the properties stated in the specification.

Strings of the Python program are modelled over Lean `String` / `List Char`
with ASCII character classes (the labels, markers and cache keys involved
are all ASCII).
-/

set_option autoImplicit false

namespace CampusNet

/-- Python exception kinds that the embedded code can raise.  The message
payloads are dropped: no verified property depends on a message text. -/
inductive PyErr where
  | campusError
  | assertionError
  | typeError
  | indexError
  | valueError
  | attrError
  deriving DecidableEq, Repr

/-- Characters stripped by Python `str.strip()` (ASCII whitespace). -/
def isSpaceChar (c : Char) : Bool :=
  c == ' ' || c == '\t' || c == '\n' || c == '\r' ||
  c == Char.ofNat 11 || c == Char.ofNat 12

/-- Model of `s.strip()` on the character list: drop whitespace from both ends. -/
def pyStrip (l : List Char) : List Char :=
  ((l.dropWhile isSpaceChar).reverse.dropWhile isSpaceChar).reverse

/-- A word character in the sense of the regex `\w` (ASCII model):
letter, digit or underscore; `\W` is its negation. -/
def isWordChar (c : Char) : Bool :=
  c.isAlphanum || c == '_'

/-- Operational model of `re.sub(r'\W|^(?=\d)', '', s)`.

The boolean argument records whether the scan position is the start of the
string (the only position where `^` can match).  At each position the
engine first tries the alternative `\W` (a one-character match, deleted),
then `^(?=\d)` (an empty match at position 0 when the next character is a
digit; the replacement is empty and the engine then copies the character
and advances, per CPython's handling of empty matches). -/
def reSubScan : Bool → List Char → List Char
  | _, [] => []
  | atStart, c :: cs =>
    if !(isWordChar c) then reSubScan false cs
    else if atStart && c.isDigit then c :: reSubScan false cs
    else c :: reSubScan false cs

/-- Function `normalize` from `campusnet.py`:
`s = s.strip().lower(); return re.sub(r'\W|^(?=\d)', '', s)`. -/
def normalize (s : String) : String :=
  ⟨reSubScan true ((pyStrip s.data).map Char.toLower)⟩

/-- Modelled from the spec's words for the FieldNormalizer contract:
"trim surrounding whitespace, lowercase, then remove every character that
is not a letter, digit, or underscore".  Used only as the reference side of
the refinement claim about `normalize`. -/
def normalizeSpec (s : String) : String :=
  ⟨((pyStrip s.data).map Char.toLower).filter isWordChar⟩

/-- Dataclass `CourseSearchResult` from `campusnet.py`: one section row.  Every field
is `str | None` in the source; `None` is `none` and an empty cell also
becomes `none` (the `v or None` coercion). -/
structure CourseSearchResult where
  name : Option String
  topic : Option String
  enrl : Option String
  det : Option String
  classnr : Option String
  sect : Option String
  begindateenddate : Option String
  days : Option String
  time : Option String
  room : Option String
  instructor : Option String
  comp : Option String
  stat : Option String
  enrltot : Option String
  sess : Option String
  deriving DecidableEq, Repr

/-- The keyword-argument field names of `CourseSearchResult` other than
`name` and `topic` (which `parse_course_search_xml` passes explicitly). -/
def searchFields : List String :=
  ["enrl", "det", "classnr", "sect", "begindateenddate", "days", "time",
   "room", "instructor", "comp", "stat", "enrltot", "sess"]

/-- The `v or None` coercion: an empty string becomes `None`. -/
def strOrNone (v : String) : Option String :=
  if v = "" then none else some v

/-- The keyword-argument pair list built for one section row:
`kwargs = {'sess': None}` followed by
`{k: v or None for k, v in zip(norm_headings, r) if k}`.
Python dict semantics make the LAST pair with a given key win. -/
def kwPairs (nhs : List String) (r : List String) :
    List (String × Option String) :=
  ("sess", none) ::
    ((nhs.zip (r.map strOrNone)).filter (fun p => p.1 ≠ ""))

/-- Last-wins lookup in a keyword-argument pair list (Python dict merge
order: later assignments overwrite earlier ones). -/
def kwGet (kw : List (String × Option String)) (f : String) : Option String :=
  match kw.reverse.find? (fun p => p.1 == f) with
  | some p => p.2
  | none => none

/-- Model of `CourseSearchResult(name=name, topic=None, **kwargs)`.  Python raises
`TypeError` when `kwargs` holds a key that is not a field of the dataclass
(this includes `name` / `topic`, already passed explicitly) or when one of
the thirteen remaining required fields is missing. -/
def mkCSR (nm : String) (kw : List (String × Option String)) :
    Except PyErr CourseSearchResult :=
  if kw.any (fun p => !(searchFields.contains p.1)) then .error .typeError
  else if searchFields.any (fun f => !(kw.any (fun p => p.1 == f))) then
    .error .typeError
  else .ok
    { name := some nm, topic := none,
      enrl := kwGet kw "enrl", det := kwGet kw "det",
      classnr := kwGet kw "classnr", sect := kwGet kw "sect",
      begindateenddate := kwGet kw "begindateenddate",
      days := kwGet kw "days", time := kwGet kw "time",
      room := kwGet kw "room", instructor := kwGet kw "instructor",
      comp := kwGet kw "comp", stat := kwGet kw "stat",
      enrltot := kwGet kw "enrltot", sess := kwGet kw "sess" }

/-- The result dictionary of `parse_course_search_xml`: course name to the
ordered list of its sections, in insertion order (Python `defaultdict`). -/
abbrev CourseGroup := List (String × List CourseSearchResult)

/-- Model of `courses[name].append(c)` on a `defaultdict(list)`: append to the
existing entry, or create a new entry at the end. -/
def appendSection (g : CourseGroup) (nm : String) (c : CourseSearchResult) :
    CourseGroup :=
  if g.any (fun p => p.1 == nm) then
    g.map (fun p => if p.1 == nm then (p.1, p.2 ++ [c]) else p)
  else g ++ [(nm, [c])]

/-- Replace the last element's `topic` field (`courses[name][-1].topic = t`
mutates the most recently appended section in place). -/
def updLastTopic (t : String) : List CourseSearchResult →
    List CourseSearchResult
  | [] => []
  | [c] => [{ c with topic := some t }]
  | c :: c2 :: cs => c :: updLastTopic t (c2 :: cs)

/-- Model of `courses[name][-1].topic = t`.  When no entry exists, the
`defaultdict` access creates an empty list and the `[-1]` index raises
`IndexError`; the same happens on an (unreachable) empty entry. -/
def setLastTopic (g : CourseGroup) (nm : String) (t : String) :
    Except PyErr CourseGroup :=
  match g.find? (fun p => p.1 == nm) with
  | none => .error .indexError
  | some e =>
    if e.2 = [] then .error .indexError
    else .ok (g.map (fun p =>
      if p.1 == nm then (p.1, updLastTopic t p.2) else p))

/-- Find the first occurrence of `sep` in a character list:
`some (before, after)` splits around the first occurrence. -/
def splitOnce (sep : List Char) : List Char →
    Option (List Char × List Char)
  | [] => none
  | c :: cs =>
    if sep.isPrefixOf (c :: cs) then some ([], (c :: cs).drop sep.length)
    else match splitOnce sep cs with
      | some p => some (c :: p.1, p.2)
      | none => none

/-- Model of `t.split(': ', 1)[-1]`: the text after the first `': '`, or `t` itself
when the separator does not occur. -/
def splitColonSpaceLast (t : String) : String :=
  match splitOnce [':', ' '] t.data with
  | some p => ⟨p.2⟩
  | none => t

/-- The topic text assigned by the topic branch: the `'Topic: '` prefix
is stripped (via `split(': ', 1)`) only when present. -/
def topicText (t : String) : String :=
  if "Topic: ".data.isPrefixOf t.data then splitColonSpaceLast t else t

/-- The row-classification loop of `parse_course_search_xml`, over the rows
after the heading row.  `nhs` is the list of normalized headings (same
length as the raw headings, against which `len(r)` is compared). -/
def searchLoop (nhs : List String) :
    List (List String) → Option String → CourseGroup →
    Except PyErr CourseGroup
  | [], _, g => .ok g
  | r :: rs, name, g =>
    if r.length = 1 then searchLoop nhs rs r.head? g
    else if r.length = nhs.length then
      match name with
      | none => .error .assertionError
      | some nm =>
        match mkCSR nm (kwPairs nhs r) with
        | .error e => .error e
        | .ok c => searchLoop nhs rs name (appendSection g nm c)
    else if r.length = 2 ∧ r.head? = some "" then
      match name with
      | none => .error .assertionError
      | some nm =>
        match setLastTopic g nm (topicText (r.getD 1 "")) with
        | .error e => .error e
        | .ok g2 => searchLoop nhs rs name g2
    else if r = ["", "", ""] then searchLoop nhs rs name g
    else .error .assertionError

/-- The parsed `<ClassList>` payload: the tag of the outer HTML element
and its rows, each row the list of stripped cell texts
(`''.join(td.itertext()).strip()` per `td`). -/
structure SearchFragment where
  tag : String
  rows : List (List String)
  deriving DecidableEq, Repr

/-- An XML search-response envelope after XML parsing.  `errorCode` is
the `<ErrorCode>` element (present or not, with its optional text);
`classList = none` models a missing `<ClassList>` element or one with
falsy text. -/
structure SearchEnvelope where
  errorCode : Option (Option String)
  classList : Option SearchFragment
  deriving DecidableEq, Repr

/-- Function `parse_course_search_xml` from `campusnet.py`, over a parsed envelope.
An empty row list makes the `headings, *rows = ...` unpacking raise
`ValueError`. -/
def parse_course_search_xml (env : SearchEnvelope) :
    Except PyErr CourseGroup :=
  match env.errorCode with
  | some ec =>
    if ec = some "CSTCLS_NOCL2" then .ok [] else .error .campusError
  | none =>
    match env.classList with
    | none => .error .campusError
    | some frag =>
      if frag.tag = "table" then
        match frag.rows with
        | [] => .error .valueError
        | headings :: rows =>
          searchLoop (headings.map normalize) rows none []
      else .error .assertionError

/-- Dataclass `CourseDetailResult` from `campusnet.py`.  All fields are
`str | None` with no dataclass defaults. -/
structure CourseDetailResult where
  session : Option String
  consent : Option String
  component : Option String
  status : Option String
  credits : Option String
  enrollment : Option String
  lastdaytoadd : Option String
  lastdaytodrop : Option String
  lastdaytowithdraw : Option String
  description : Option String
  deriving DecidableEq, Repr

/-- The field names of `CourseDetailResult`, i.e. the exact keyword set
its dataclass `__init__` requires. -/
def detailFields : List String :=
  ["session", "consent", "component", "status", "credits", "enrollment",
   "lastdaytoadd", "lastdaytodrop", "lastdaytowithdraw", "description"]

/-- The `props` dictionary: insertion-ordered, overwriting an existing key
in place (Python dict assignment). -/
abbrev Props := List (String × String)

/-- Model of `d[k] = v` on a Python dict. -/
def pyInsert (d : Props) (k v : String) : Props :=
  if d.any (fun p => p.1 == k) then
    d.map (fun p => if p.1 == k then (k, v) else p)
  else d ++ [(k, v)]

/-- Model of `s.strip()` on a `String`. -/
def pyStripStr (s : String) : String := ⟨pyStrip s.data⟩

/-- Model of `s[:-1]`: drop the final character. -/
def strDropLast (s : String) : String := ⟨s.data.dropLast⟩

/-- The pairwise label/value scan over the first summary table's
`td.text` values: whenever `td1` is truthy and ends with `':'`,
record `props[td1[:-1]] = td2.strip()`; a `None` second cell makes
`.strip()` raise `AttributeError`. -/
def scanPairs : List (Option String × Option String) → Props →
    Except PyErr Props
  | [], ps => .ok ps
  | (td1, td2) :: rest, ps =>
    match td1 with
    | none => scanPairs rest ps
    | some s =>
      if s.data.getLast? = some ':' then
        match td2 with
        | none => .error .attrError
        | some v => scanPairs rest (pyInsert ps (strDropLast s) (pyStripStr v))
      else scanPairs rest ps

/-- Model of `pairwise(first_table_tds)` followed by the label/value scan. -/
def scanProps (tds : List (Option String)) : Except PyErr Props :=
  scanPairs (tds.zip tds.tail) []

/-- The description scan: for each visited content cell (its list of
non-blank stripped text runs), when the first run is exactly
`'Course Description:'`, assign `props['Description'] = items[1]`;
a missing second run raises `IndexError`. -/
def descScan : List (List String) → Props → Except PyErr Props
  | [], ps => .ok ps
  | cell :: rest, ps =>
    match cell with
    | [] => descScan rest ps
    | first :: others =>
      if first = "Course Description:" then
        match others with
        | [] => .error .indexError
        | v :: _ => descScan rest (pyInsert ps "Description" v)
      else descScan rest ps

/-- Model of `CourseDetailResult(**fields)`: `TypeError` when a key is not a field
of the dataclass or a field's key is missing; values use last-wins lookup
(the normalized-key dict comprehension keeps the later assignment). -/
def mkCDR (kw : Props) : Except PyErr CourseDetailResult :=
  if kw.any (fun p => !(detailFields.contains p.1)) then .error .typeError
  else if detailFields.any (fun f => !(kw.any (fun p => p.1 == f))) then
    .error .typeError
  else
    .ok
      { session := (kw.reverse.find? (fun p => p.1 == "session")).map (·.2),
        consent := (kw.reverse.find? (fun p => p.1 == "consent")).map (·.2),
        component :=
          (kw.reverse.find? (fun p => p.1 == "component")).map (·.2),
        status := (kw.reverse.find? (fun p => p.1 == "status")).map (·.2),
        credits := (kw.reverse.find? (fun p => p.1 == "credits")).map (·.2),
        enrollment :=
          (kw.reverse.find? (fun p => p.1 == "enrollment")).map (·.2),
        lastdaytoadd :=
          (kw.reverse.find? (fun p => p.1 == "lastdaytoadd")).map (·.2),
        lastdaytodrop :=
          (kw.reverse.find? (fun p => p.1 == "lastdaytodrop")).map (·.2),
        lastdaytowithdraw :=
          (kw.reverse.find? (fun p => p.1 == "lastdaytowithdraw")).map (·.2),
        description :=
          (kw.reverse.find? (fun p => p.1 == "description")).map (·.2) }

/-- The parsed `<ClassDetails>` payload.  `firstTable` is the list of
`td.text` values of `div.find('table/tr/td/table')` (`none` when that
element is absent, in which case iterating it raises `AttributeError`);
`descCells` is the sequence of content-area cells visited by the
description scan, each as its list of non-blank stripped text runs. -/
structure DetailFragment where
  tag : String
  firstTable : Option (List (Option String))
  descCells : List (List String)
  deriving DecidableEq, Repr

/-- An XML detail-response envelope after XML parsing; `classDetails =
none` models a missing `<ClassDetails>` element or one with falsy text. -/
structure DetailEnvelope where
  errorCode : Option (Option String)
  classDetails : Option DetailFragment
  deriving DecidableEq, Repr

/-- Function `parse_course_details_xml` from `campusnet.py`, over a parsed
envelope: any present `<ErrorCode>` is fatal, then the label/value scan,
the description scan, normalization of the collected label keys, and the
`CourseDetailResult(**fields)` construction. -/
def parse_course_details_xml (env : DetailEnvelope) :
    Except PyErr CourseDetailResult :=
  match env.errorCode with
  | some _ => .error .campusError
  | none =>
    match env.classDetails with
    | none => .error .campusError
    | some frag =>
      if frag.tag = "div" then
        match frag.firstTable with
        | none => .error .attrError
        | some tds =>
          match scanProps tds with
          | .error e => .error e
          | .ok ps =>
            match descScan frag.descCells ps with
            | .error e => .error e
            | .ok ps2 => mkCDR (ps2.map (fun p => (normalize p.1, p.2)))
      else .error .assertionError

/-! ## The response cache -/

/-- The filesystem collaborator: a map from path to file text. -/
abbrev FS := String → Option String

/-- An empty cache directory. -/
def emptyFS : FS := fun _ => none

/-- Model of `open(path, 'w').write(text)`. -/
def fsWrite (fs : FS) (p t : String) : FS :=
  fun q => if q = p then some t else fs q

/-- Model of `open(path).read()` when the file exists. -/
def fsRead (fs : FS) (p : String) : Option String := fs p

/-- Split a character list at every `'/'` (the raw segments of a POSIX
path string, empty segments included). -/
def splitSlash : List Char → List (List Char)
  | [] => [[]]
  | c :: cs =>
    if c = '/' then [] :: splitSlash cs
    else
      match splitSlash cs with
      | [] => [[c]]
      | p :: ps => (c :: p) :: ps

/-- The parsed parts of one path segment, per `pathlib.PurePosixPath`:
split at `'/'` and drop empty segments (collapsing `'//'` and a trailing
`'/'`) and `'.'` segments; `'..'` segments are kept. -/
def pathSegParts (s : String) : List String :=
  ((splitSlash s.data).filter
    (fun p => !(p == ([] : List Char)) && !(p == ['.']))).map
    (fun l => (⟨l⟩ : String))

/-- The root of a POSIX path string, per `pathlib`: exactly two leading
slashes keep the special `'//'` root, any other leading slash run is
`'/'`, and no leading slash means a relative path. -/
def posixRoot (l : List Char) : String :=
  if "//".data.isPrefixOf l && !("///".data.isPrefixOf l) then "//"
  else if "/".data.isPrefixOf l then "/"
  else ""

/-- Render a part list the way `str(PurePosixPath)` joins parts: with
`'/'` between consecutive parts. -/
def pathStr : List String → String
  | [] => ""
  | [p] => p
  | p :: q :: rest => p ++ "/" ++ pathStr (q :: rest)

/-- Model of `base / seg` on `pathlib` paths, where `base` is an already
normalized relative part list and `seg` an arbitrary string segment: an
absolute `seg` replaces `base` (keeping its root), otherwise the parsed
parts of `seg` are appended to `base`; the result is the path's string
form. -/
def pyDivSeg (base : List String) (seg : String) : String :=
  if posixRoot seg.data = "" then pathStr (base ++ pathSegParts seg)
  else posixRoot seg.data ++ pathStr (pathSegParts seg)

/-- The path `self.cachedir / f'subjects_{term}_{acad}.txt'`, with
`pathlib`'s segment normalization. -/
def subjectsCachePath (term acad : String) : String :=
  pyDivSeg ["cache"] ("subjects_" ++ term ++ "_" ++ acad ++ ".txt")

/-- The path `self.cachedir / 'search' / f'{term}_{subject}.xml'`, with
`pathlib`'s segment normalization. -/
def searchCachePath (term subject : String) : String :=
  pyDivSeg ["cache", "search"] (term ++ "_" ++ subject ++ ".xml")

/-- The path `self.cachedir / 'details' / f'{termNbr}_{classNbr}_{acad}.xml'`,
with `pathlib`'s segment normalization. -/
def detailsCachePath (termNbr classNbr acad : String) : String :=
  pyDivSeg ["cache", "details"]
    (termNbr ++ "_" ++ classNbr ++ "_" ++ acad ++ ".xml")

/-- The filesystem together with the number of fetch invocations
performed so far; the fetch collaborator is a function from the
invocation index to the response text, so that "would return a different
text on each invocation" is expressible. -/
structure CacheState where
  fs : FS
  fetchCount : Nat

/-- Model of `retrieve_xml` inside `find_courses`: read the cache only when
`load_cache` is set and the file exists; otherwise fetch and
unconditionally write the response to the cache file. -/
def retrieveSearchXml (loadCache : Bool) (term subject : String)
    (fetchFn : Nat → String) (st : CacheState) : String × CacheState :=
  match (if loadCache then fsRead st.fs (searchCachePath term subject)
         else none) with
  | some txt => (txt, st)
  | none =>
    let resp := fetchFn st.fetchCount
    (resp, ⟨fsWrite st.fs (searchCachePath term subject) resp,
            st.fetchCount + 1⟩)

/-- Model of `find_courses`: parse the retrieved XML.  `decode` is the external
XML/HTML parsing collaborator taking the raw text to a parsed envelope. -/
def findCoursesRun (loadCache : Bool) (term subject : String)
    (decode : String → SearchEnvelope) (fetchFn : Nat → String)
    (st : CacheState) : Except PyErr CourseGroup × CacheState :=
  let r := retrieveSearchXml loadCache term subject fetchFn st
  (parse_course_search_xml (decode r.1), r.2)

/-- Model of `class_details`: read the cache only when `load_cache` is set and the
file exists; otherwise fetch, parse, and write the raw response to the
cache file only after parsing succeeded (a parse failure propagates
before the write). -/
def classDetailsRun (loadCache : Bool) (termNbr classNbr acad : String)
    (decode : String → DetailEnvelope) (fetchFn : Nat → String)
    (st : CacheState) : Except PyErr CourseDetailResult × CacheState :=
  match (if loadCache then
           fsRead st.fs (detailsCachePath termNbr classNbr acad)
         else none) with
  | some txt => (parse_course_details_xml (decode txt), st)
  | none =>
    let respXml := fetchFn st.fetchCount
    match parse_course_details_xml (decode respXml) with
    | .error e => (.error e, ⟨st.fs, st.fetchCount + 1⟩)
    | .ok res =>
      (.ok res, ⟨fsWrite st.fs (detailsCachePath termNbr classNbr acad)
                   respXml, st.fetchCount + 1⟩)

/-! ## Concrete test data (Scenario A / B / C of the specification) -/

/-- The heading row of Scenario A. -/
def scenarioHeadings : List String :=
  ["Enrl.", "Det.", "ClassNr", "Sect.", "Begin Date - End Date", "Days",
   "Time", "Room", "Instructor", "Comp.", "Stat.", "Enrl/Tot"]

/-- The section row of Scenario A. -/
def scenarioRow : List String :=
  ["", "", "2644", "001", "08/25-12/12", "TBA", "TBA", "TBA", "Smith",
   "LEC", "Open", "5/30"]

/-- The section record produced for Scenario A (before any topic row). -/
def scenarioSection : CourseSearchResult :=
  { name := some "CIS 895 Doctoral Research", topic := none,
    enrl := none, det := none, classnr := some "2644", sect := some "001",
    begindateenddate := some "08/25-12/12", days := some "TBA",
    time := some "TBA", room := some "TBA", instructor := some "Smith",
    comp := some "LEC", stat := some "Open", enrltot := some "5/30",
    sess := none }

/-- A first-summary-table cell-text sequence carrying the nine labelled
fields (the description arrives through the description scan). -/
def detailLabelTds : List (Option String) :=
  [some "Session:", some "Reg", some "Consent:", some "No",
   some "Component:", some "LEC", some "Status:", some "Open",
   some "Credits:", some "3.00", some "Enrollment:", some "10",
   some "Last Day To Add:", some "d1", some "Last Day To Drop:", some "d2",
   some "Last Day To Withdraw:", some "d3"]

/-- The `props` produced by the pairwise scan over `detailLabelTds`. -/
def detailLabelProps : Props :=
  [("Session", "Reg"), ("Consent", "No"), ("Component", "LEC"),
   ("Status", "Open"), ("Credits", "3.00"), ("Enrollment", "10"),
   ("Last Day To Add", "d1"), ("Last Day To Drop", "d2"),
   ("Last Day To Withdraw", "d3")]

/-!
## Theorems

Helper lemmas come first; the theorem settling claim `Cn` is named
`Cn_...` and is preceded by a doc comment naming the claim.
-/

theorem reSubScan_eq_filter (b : Bool) (l : List Char) :
    reSubScan b l = l.filter isWordChar := by
  induction l generalizing b with
  | nil => rfl
  | cons c cs ih =>
    simp only [reSubScan, List.filter]
    by_cases hw : isWordChar c
    · have hw' : (!isWordChar c) = false := by simp [hw]
      rw [hw']
      simp only [Bool.false_eq_true, if_false, hw]
      by_cases hd : b && c.isDigit
      · rw [if_pos hd, ih]
      · rw [if_neg hd, ih]
    · have hw0 : isWordChar c = false := by simpa using hw
      simp [hw0, ih]

/-- Claim C7: the field normalizer equals the reference function "trim
surrounding whitespace, lowercase, then delete every character that is
not a letter, digit or underscore"; the `^(?=\d)` alternative of the
substitution regex never changes the output, so a label beginning with a
digit keeps its leading digit. -/
theorem C7_normalize_equiv :
    (∀ s : String, normalize s = normalizeSpec s) ∧
    (∀ (d : Char) (l : List Char), d.isDigit = true →
      reSubScan true (d :: l) = d :: l.filter isWordChar) := by
  constructor
  · intro s
    unfold normalize normalizeSpec
    rw [reSubScan_eq_filter]
  · intro d l hd
    have hw : isWordChar d = true := by
      simp [isWordChar, Char.isAlphanum, hd]
    simp [reSubScan, hw, hd, reSubScan_eq_filter]

/-- Closed instance of `C7_normalize_equiv`. -/
theorem C7_witness :
    normalize "1st Day" = normalizeSpec "1st Day" ∧
    ('1').isDigit = true ∧
    reSubScan true ('1' :: ['s', 't']) = '1' :: ['s', 't'].filter isWordChar :=
  ⟨C7_normalize_equiv.1 "1st Day", by decide,
   C7_normalize_equiv.2 '1' ['s', 't'] (by decide)⟩

theorem stringDataInj {a b : String} (h : a.data = b.data) : a = b := by
  cases a; cases b; cases h; rfl

theorem str_data_append (a b : String) :
    (a ++ b).data = a.data ++ b.data := rfl

theorem sep_inj :
    ∀ (l1 l2 r1 r2 : List Char), '_' ∉ l1 → '_' ∉ l2 →
      l1 ++ '_' :: r1 = l2 ++ '_' :: r2 → l1 = l2 ∧ r1 = r2 := by
  intro l1
  induction l1 with
  | nil =>
    intro l2 r1 r2 _ h2 heq
    cases l2 with
    | nil => exact ⟨rfl, by simpa using heq⟩
    | cons c t =>
      exfalso
      have hc : c = '_' := by
        have := congrArg List.head? heq
        simpa using this.symm
      exact h2 (hc ▸ List.mem_cons_self c t)
  | cons a t1 ih =>
    intro l2 r1 r2 h1 h2 heq
    cases l2 with
    | nil =>
      exfalso
      have ha : a = '_' := by
        have := congrArg List.head? heq
        simpa using this
      exact h1 (ha ▸ List.mem_cons_self a t1)
    | cons c t2 =>
      have hhead : a = c := by
        have := congrArg List.head? heq
        simpa using this
      have htail : t1 ++ '_' :: r1 = t2 ++ '_' :: r2 := by
        have := congrArg List.tail heq
        simpa using this
      have h1' : '_' ∉ t1 := fun hm => h1 (List.mem_cons_of_mem a hm)
      have h2' : '_' ∉ t2 := fun hm => h2 (List.mem_cons_of_mem c hm)
      obtain ⟨he, hr⟩ := ih t2 r1 r2 h1' h2' htail
      exact ⟨by rw [hhead, he], hr⟩

theorem splitSlash_noslash (l : List Char) (h : ('/' : Char) ∉ l) :
    splitSlash l = [l] := by
  induction l with
  | nil => rfl
  | cons c cs ih =>
    have hc : c ≠ '/' := fun he => h (he ▸ List.mem_cons_self c cs)
    have hcs : ('/' : Char) ∉ cs := fun hm => h (List.mem_cons_of_mem c hm)
    simp [splitSlash, hc, ih hcs]

theorem posixRoot_noslash (l : List Char) (h : ('/' : Char) ∉ l) :
    posixRoot l = "" := by
  cases l with
  | nil => rfl
  | cons c cs =>
    have hc : ('/' : Char) ≠ c := by
      intro he
      exact h (by rw [he]; exact List.mem_cons_self c cs)
    simp [posixRoot, List.isPrefixOf, hc]

theorem pathSegParts_noslash (s : String) (h : ('/' : Char) ∉ s.data)
    (hlen : 2 ≤ s.data.length) : pathSegParts s = [s] := by
  have hne : s.data ≠ [] := by
    intro he
    rw [he] at hlen
    exact absurd hlen (by decide)
  have hne2 : s.data ≠ ['.'] := by
    intro he
    rw [he] at hlen
    exact absurd hlen (by decide)
  unfold pathSegParts
  rw [splitSlash_noslash s.data h]
  simp [hne, hne2]

theorem subjectsCachePath_noslash (t a : String)
    (ht : ('/' : Char) ∉ t.data) (ha : ('/' : Char) ∉ a.data) :
    subjectsCachePath t a
      = "cache" ++ "/" ++ ("subjects_" ++ t ++ "_" ++ a ++ ".txt") := by
  have hseg : ('/' : Char) ∉
      ("subjects_" ++ t ++ "_" ++ a ++ ".txt").data := by
    intro hm
    simp only [str_data_append, List.mem_append] at hm
    rcases hm with (((h1 | h2) | h3) | h4) | h5
    · exact absurd h1 (by decide)
    · exact ht h2
    · exact absurd h3 (by decide)
    · exact ha h4
    · exact absurd h5 (by decide)
  have hlen : 2 ≤ ("subjects_" ++ t ++ "_" ++ a ++ ".txt").data.length := by
    have h4 : (".txt" : String).data.length = 4 := by decide
    have : ("subjects_" ++ t ++ "_" ++ a ++ ".txt").data.length
        = ("subjects_" ++ t ++ "_" ++ a).data.length + 4 := by
      rw [str_data_append, List.length_append, h4]
    omega
  unfold subjectsCachePath pyDivSeg
  rw [posixRoot_noslash _ hseg, if_pos rfl, pathSegParts_noslash _ hseg hlen]
  rfl

theorem searchCachePath_noslash (t b : String)
    (ht : ('/' : Char) ∉ t.data) (hb : ('/' : Char) ∉ b.data) :
    searchCachePath t b
      = "cache" ++ "/" ++ ("search" ++ "/" ++ (t ++ "_" ++ b ++ ".xml")) := by
  have hseg : ('/' : Char) ∉ (t ++ "_" ++ b ++ ".xml").data := by
    intro hm
    simp only [str_data_append, List.mem_append] at hm
    rcases hm with ((h1 | h2) | h3) | h4
    · exact ht h1
    · exact absurd h2 (by decide)
    · exact hb h3
    · exact absurd h4 (by decide)
  have hlen : 2 ≤ (t ++ "_" ++ b ++ ".xml").data.length := by
    have h4 : (".xml" : String).data.length = 4 := by decide
    have : (t ++ "_" ++ b ++ ".xml").data.length
        = (t ++ "_" ++ b).data.length + 4 := by
      rw [str_data_append, List.length_append, h4]
    omega
  unfold searchCachePath pyDivSeg
  rw [posixRoot_noslash _ hseg, if_pos rfl, pathSegParts_noslash _ hseg hlen]
  rfl

theorem detailsCachePath_noslash (t c a : String)
    (ht : ('/' : Char) ∉ t.data) (hc : ('/' : Char) ∉ c.data)
    (ha : ('/' : Char) ∉ a.data) :
    detailsCachePath t c a
      = "cache" ++ "/" ++ ("details" ++ "/"
          ++ (t ++ "_" ++ c ++ "_" ++ a ++ ".xml")) := by
  have hseg : ('/' : Char) ∉
      (t ++ "_" ++ c ++ "_" ++ a ++ ".xml").data := by
    intro hm
    simp only [str_data_append, List.mem_append] at hm
    rcases hm with ((((h1 | h2) | h3) | h4) | h5) | h6
    · exact ht h1
    · exact absurd h2 (by decide)
    · exact hc h3
    · exact absurd h4 (by decide)
    · exact ha h5
    · exact absurd h6 (by decide)
  have hlen : 2 ≤ (t ++ "_" ++ c ++ "_" ++ a ++ ".xml").data.length := by
    have h4 : (".xml" : String).data.length = 4 := by decide
    have : (t ++ "_" ++ c ++ "_" ++ a ++ ".xml").data.length
        = (t ++ "_" ++ c ++ "_" ++ a).data.length + 4 := by
      rw [str_data_append, List.length_append, h4]
    omega
  unfold detailsCachePath pyDivSeg
  rw [posixRoot_noslash _ hseg, if_pos rfl, pathSegParts_noslash _ hseg hlen]
  rfl

/-- Claim C8: cache key construction is deterministic (it is a function);
as amended, within each data kind it is injective provided the parameters
contain no slash (which `pathlib` would normalize away) and the parameter
components other than the last contain no underscore
(`C8_counterexample` shows that with an underscore or a slash inside a
parameter, distinct tuples can collide). -/
theorem C8_cache_key_injective :
    (∀ t1 a1 t2 a2 : String, '_' ∉ t1.data → '_' ∉ t2.data →
      ('/' : Char) ∉ t1.data → ('/' : Char) ∉ t2.data →
      ('/' : Char) ∉ a1.data → ('/' : Char) ∉ a2.data →
      subjectsCachePath t1 a1 = subjectsCachePath t2 a2 →
      t1 = t2 ∧ a1 = a2) ∧
    (∀ t1 s1 t2 s2 : String, '_' ∉ t1.data → '_' ∉ t2.data →
      ('/' : Char) ∉ t1.data → ('/' : Char) ∉ t2.data →
      ('/' : Char) ∉ s1.data → ('/' : Char) ∉ s2.data →
      searchCachePath t1 s1 = searchCachePath t2 s2 →
      t1 = t2 ∧ s1 = s2) ∧
    (∀ t1 c1 a1 t2 c2 a2 : String, '_' ∉ t1.data → '_' ∉ t2.data →
      '_' ∉ c1.data → '_' ∉ c2.data →
      ('/' : Char) ∉ t1.data → ('/' : Char) ∉ t2.data →
      ('/' : Char) ∉ c1.data → ('/' : Char) ∉ c2.data →
      ('/' : Char) ∉ a1.data → ('/' : Char) ∉ a2.data →
      detailsCachePath t1 c1 a1 = detailsCachePath t2 c2 a2 →
      t1 = t2 ∧ c1 = c2 ∧ a1 = a2) := by
  refine ⟨?_, ?_, ?_⟩
  · intro t1 a1 t2 a2 h1 h2 hsl1 hsl2 hsa1 hsa2 heq
    rw [subjectsCachePath_noslash t1 a1 hsl1 hsa1,
      subjectsCachePath_noslash t2 a2 hsl2 hsa2] at heq
    have hd : ("cache".data ++ ('/' :: ("subjects_".data ++ (t1.data ++ '_' ::
          (a1.data ++ ".txt".data)))))
        = ("cache".data ++ ('/' :: ("subjects_".data ++ (t2.data ++ '_' ::
          (a2.data ++ ".txt".data))))) := by
      have h0 := congrArg String.data heq
      simpa [str_data_append, List.append_assoc] using h0
    have hd2 := List.append_cancel_left hd
    have hd3 : "subjects_".data ++ (t1.data ++ '_' :: (a1.data ++ ".txt".data))
        = "subjects_".data ++ (t2.data ++ '_' :: (a2.data ++ ".txt".data)) :=
      by simpa using hd2
    obtain ⟨ht, hr⟩ :=
      sep_inj t1.data t2.data _ _ h1 h2 (List.append_cancel_left hd3)
    exact ⟨stringDataInj ht,
      stringDataInj (List.append_cancel_right hr)⟩
  · intro t1 s1 t2 s2 h1 h2 hsl1 hsl2 hss1 hss2 heq
    rw [searchCachePath_noslash t1 s1 hsl1 hss1,
      searchCachePath_noslash t2 s2 hsl2 hss2] at heq
    have hd : ("cache".data ++ ('/' :: ("search".data ++ ('/' ::
          (t1.data ++ '_' :: (s1.data ++ ".xml".data))))))
        = ("cache".data ++ ('/' :: ("search".data ++ ('/' ::
          (t2.data ++ '_' :: (s2.data ++ ".xml".data)))))) := by
      have h0 := congrArg String.data heq
      simpa [str_data_append, List.append_assoc] using h0
    have hd2 := List.append_cancel_left hd
    have hd3 : "search".data ++ ('/' :: (t1.data ++ '_' ::
          (s1.data ++ ".xml".data)))
        = "search".data ++ ('/' :: (t2.data ++ '_' ::
          (s2.data ++ ".xml".data))) := by simpa using hd2
    have hd4 := List.append_cancel_left hd3
    have hd5 : t1.data ++ '_' :: (s1.data ++ ".xml".data)
        = t2.data ++ '_' :: (s2.data ++ ".xml".data) := by
      simpa using hd4
    obtain ⟨ht, hr⟩ := sep_inj t1.data t2.data _ _ h1 h2 hd5
    exact ⟨stringDataInj ht,
      stringDataInj (List.append_cancel_right hr)⟩
  · intro t1 c1 a1 t2 c2 a2 hu1 hu2 hu3 hu4 hsl1 hsl2 hsc1 hsc2 hsa1 hsa2 heq
    rw [detailsCachePath_noslash t1 c1 a1 hsl1 hsc1 hsa1,
      detailsCachePath_noslash t2 c2 a2 hsl2 hsc2 hsa2] at heq
    have hd : ("cache".data ++ ('/' :: ("details".data ++ ('/' ::
          (t1.data ++ '_' :: (c1.data ++ '_' ::
            (a1.data ++ ".xml".data)))))))
        = ("cache".data ++ ('/' :: ("details".data ++ ('/' ::
          (t2.data ++ '_' :: (c2.data ++ '_' ::
            (a2.data ++ ".xml".data))))))) := by
      have h0 := congrArg String.data heq
      simpa [str_data_append, List.append_assoc] using h0
    have hd2 := List.append_cancel_left hd
    have hd3 : "details".data ++ ('/' :: (t1.data ++ '_' :: (c1.data ++ '_' ::
          (a1.data ++ ".xml".data))))
        = "details".data ++ ('/' :: (t2.data ++ '_' :: (c2.data ++ '_' ::
          (a2.data ++ ".xml".data)))) := by simpa using hd2
    have hd4 := List.append_cancel_left hd3
    have hd5 : t1.data ++ '_' :: (c1.data ++ '_' :: (a1.data ++ ".xml".data))
        = t2.data ++ '_' :: (c2.data ++ '_' :: (a2.data ++ ".xml".data)) := by
      simpa using hd4
    obtain ⟨ht, hr⟩ := sep_inj t1.data t2.data _ _ hu1 hu2 hd5
    obtain ⟨hc, hr2⟩ := sep_inj c1.data c2.data _ _ hu3 hu4 hr
    exact ⟨stringDataInj ht, stringDataInj hc,
      stringDataInj (List.append_cancel_right hr2)⟩

/-- Claim C8 (counterexample): distinct parameter tuples can produce the
same cache key, so key construction is not injective on all tuples: an
underscore inside a parameter shifts the separator, and a slash inside a
parameter is normalized away by `pathlib`, each yielding a collision. -/
theorem C8_counterexample :
    (subjectsCachePath "a_b" "c" = subjectsCachePath "a" "b_c" ∧
      ("a_b", "c") ≠ (("a", "b_c") : String × String)) ∧
    (searchCachePath "a//b" "c" = searchCachePath "a/b" "c" ∧
      ("a//b" : String) ≠ "a/b") := by
  exact ⟨⟨by decide, by decide⟩, ⟨by decide, by decide⟩⟩

/-- Closed instance of `C8_cache_key_injective`. -/
theorem C8_witness :
    ("114" = "114" ∧ "GRAD" = "GRAD") ∧
    ("115" = "115" ∧ "CIS" = "CIS") ∧
    ("114" = "114" ∧ "2644" = "2644" ∧ "GRAD" = "GRAD") :=
  ⟨C8_cache_key_injective.1 "114" "GRAD" "114" "GRAD"
      (by decide) (by decide) (by decide) (by decide) (by decide) (by decide)
      rfl,
   C8_cache_key_injective.2.1 "115" "CIS" "115" "CIS"
      (by decide) (by decide) (by decide) (by decide) (by decide) (by decide)
      rfl,
   C8_cache_key_injective.2.2 "114" "2644" "GRAD" "114" "2644" "GRAD"
      (by decide) (by decide) (by decide) (by decide) (by decide) (by decide)
      (by decide) (by decide) (by decide) (by decide) rfl⟩

/-- Claim C1 (counterexample): with caching disabled, a `find_courses` call
changes the persisted cache state — the entry at the search key differs
after the call from before it, refuting "the on-disk cache state after
the call equals the state before it". -/
theorem C1_counterexample :
    (findCoursesRun false "114" "CIS"
        (fun _ => ⟨some (some "CSTCLS_NOCL2"), none⟩)
        (fun _ => "X") ⟨emptyFS, 0⟩).2.fs (searchCachePath "114" "CIS")
      ≠ emptyFS (searchCachePath "114" "CIS") := by
  decide

/-- Claim C1 (amended): with caching disabled, `find_courses` and
`class_details` invoke the fetch exactly once per call and never read the
persisted cache (the returned value depends only on the fetched text),
but they do write it: `find_courses` always persists the fetched text
under the search key, and `class_details` persists it under the detail
key exactly when detail parsing succeeds. -/
theorem C1_cache_disabled_writes
    (term subject tn cn acad : String) (dec : String → SearchEnvelope)
    (dec2 : String → DetailEnvelope) (fetchFn fetchFn2 : Nat → String)
    (st st2 : CacheState) :
    ((findCoursesRun false term subject dec fetchFn st).2.fetchCount
        = st.fetchCount + 1 ∧
     (findCoursesRun false term subject dec fetchFn st).2.fs
        = fsWrite st.fs (searchCachePath term subject)
            (fetchFn st.fetchCount) ∧
     (findCoursesRun false term subject dec fetchFn st).1
        = parse_course_search_xml (dec (fetchFn st.fetchCount))) ∧
    ((classDetailsRun false tn cn acad dec2 fetchFn2 st2).2.fetchCount
        = st2.fetchCount + 1 ∧
     (classDetailsRun false tn cn acad dec2 fetchFn2 st2).2.fs
        = (match parse_course_details_xml (dec2 (fetchFn2 st2.fetchCount))
           with
           | .ok _ => fsWrite st2.fs (detailsCachePath tn cn acad)
                        (fetchFn2 st2.fetchCount)
           | .error _ => st2.fs) ∧
     (classDetailsRun false tn cn acad dec2 fetchFn2 st2).1
        = parse_course_details_xml (dec2 (fetchFn2 st2.fetchCount))) := by
  refine ⟨⟨rfl, rfl, rfl⟩, ?_, ?_, ?_⟩ <;>
    · unfold classDetailsRun
      cases h : parse_course_details_xml (dec2 (fetchFn2 st2.fetchCount)) <;>
        simp [h]

/-- Claim C4: with caching enabled and no persisted entry for the key,
calling the cached retrieval of `find_courses` twice returns the first
call's text on the second call — even though the fetch function would
return a different text on each invocation — and the fetch function is
invoked exactly once across both calls. -/
theorem C4_cache_idempotent (term subject : String)
    (fetchFn : Nat → String) (st : CacheState)
    (hfresh : st.fs (searchCachePath term subject) = none) :
    (retrieveSearchXml true term subject fetchFn st).1
        = fetchFn st.fetchCount ∧
    (retrieveSearchXml true term subject fetchFn
        (retrieveSearchXml true term subject fetchFn st).2).1
      = (retrieveSearchXml true term subject fetchFn st).1 ∧
    (retrieveSearchXml true term subject fetchFn
        (retrieveSearchXml true term subject fetchFn st).2).2.fetchCount
      = st.fetchCount + 1 := by
  unfold retrieveSearchXml fsRead fsWrite
  simp [hfresh]

/-- Closed instance of `C4_cache_idempotent`, with a fetch function that
returns a different text on each invocation. -/
theorem C4_witness :
    emptyFS (searchCachePath "114" "CIS") = none ∧
    ((retrieveSearchXml true "114" "CIS"
        (fun n => if n = 0 then "A" else "B") ⟨emptyFS, 0⟩).1
      = (fun n : Nat => if n = 0 then "A" else "B") 0 ∧
     (retrieveSearchXml true "114" "CIS"
        (fun n => if n = 0 then "A" else "B")
        (retrieveSearchXml true "114" "CIS"
          (fun n => if n = 0 then "A" else "B") ⟨emptyFS, 0⟩).2).1
      = (retrieveSearchXml true "114" "CIS"
          (fun n => if n = 0 then "A" else "B") ⟨emptyFS, 0⟩).1 ∧
     (retrieveSearchXml true "114" "CIS"
        (fun n => if n = 0 then "A" else "B")
        (retrieveSearchXml true "114" "CIS"
          (fun n => if n = 0 then "A" else "B") ⟨emptyFS, 0⟩).2).2.fetchCount
      = 0 + 1) :=
  ⟨rfl, C4_cache_idempotent "114" "CIS"
    (fun n => if n = 0 then "A" else "B") ⟨emptyFS, 0⟩ rfl⟩

theorem searchLoop_title (nhs : List String) (x : String)
    (rs : List (List String)) (name : Option String) (g : CourseGroup) :
    searchLoop nhs ([x] :: rs) name g = searchLoop nhs rs (some x) g := by
  simp [searchLoop]

theorem searchLoop_section (nhs : List String) (r : List String)
    (rs : List (List String)) (nm : String) (g : CourseGroup)
    (c : CourseSearchResult)
    (h1 : r.length ≠ 1) (h2 : r.length = nhs.length)
    (hc : mkCSR nm (kwPairs nhs r) = .ok c) :
    searchLoop nhs (r :: rs) (some nm) g
      = searchLoop nhs rs (some nm) (appendSection g nm c) := by
  simp only [searchLoop]
  rw [if_neg h1, if_pos h2, hc]

theorem searchLoop_topic (nhs : List String) (t : String)
    (rs : List (List String)) (nm : String) (g g2 : CourseGroup)
    (hlen : nhs.length ≠ 2)
    (hset : setLastTopic g nm (topicText t) = .ok g2) :
    searchLoop nhs (["", t] :: rs) (some nm) g
      = searchLoop nhs rs (some nm) g2 := by
  have hget : topicText ((["", t] : List String).getD 1 "") = topicText t :=
    rfl
  simp only [searchLoop]
  rw [if_neg (by simp), if_neg (fun h => hlen h.symm),
    if_pos (by simp : (["", t] : List String).length = 2 ∧
      (["", t] : List String).head? = some ""), hget, hset]

theorem appendSection_nil (nm : String) (c : CourseSearchResult) :
    appendSection [] nm c = [(nm, [c])] := rfl

theorem appendSection_single (nm : String) (c : CourseSearchResult)
    (l : List CourseSearchResult) :
    appendSection [(nm, l)] nm c = [(nm, l ++ [c])] := by
  simp [appendSection]

theorem setLastTopic_single (nm t : String)
    (l : List CourseSearchResult) (h : l ≠ []) :
    setLastTopic [(nm, l)] nm t = .ok [(nm, updLastTopic t l)] := by
  simp [setLastTopic, h]

/-- Claim C5 (amended): a row of length 2 whose first cell is empty is
always treated as a topic-continuation row, whether or not the second
cell begins with `"Topic: "`: the prefix is stripped when present and the
(possibly unstripped) text is assigned to the topic of the most recently
appended section.  The classification does require a current course name
(fatal `AssertionError` otherwise) and at least one section appended for
it (fatal `IndexError` otherwise). -/
theorem C5_topic_row_classification
    (hs : List String) (nm t : String) (r1 : List String)
    (c : CourseSearchResult)
    (hlen1 : hs.length ≠ 1) (hlen2 : hs.length ≠ 2)
    (hr1 : r1.length = hs.length)
    (hc : mkCSR nm (kwPairs (hs.map normalize) r1) = .ok c) :
    parse_course_search_xml ⟨none, some ⟨"table", [hs, [nm], r1, ["", t]]⟩⟩
        = .ok [(nm, [{ c with topic := some (topicText t) }])] ∧
    parse_course_search_xml ⟨none, some ⟨"table", [hs, [nm], ["", t]]⟩⟩
        = .error .indexError ∧
    parse_course_search_xml ⟨none, some ⟨"table", [hs, ["", t]]⟩⟩
        = .error .assertionError := by
  have hmap : (hs.map normalize).length = hs.length := hs.length_map normalize
  have hlen1' : r1.length ≠ 1 := fun h => hlen1 (hr1 ▸ h)
  have hlen2' : (hs.map normalize).length ≠ 2 := fun h => hlen2 (hmap ▸ h)
  have hr1' : r1.length = (hs.map normalize).length := by rw [hmap, hr1]
  refine ⟨?_, ?_, ?_⟩
  · show searchLoop (hs.map normalize) [[nm], r1, ["", t]] none [] = _
    rw [searchLoop_title, searchLoop_section _ _ _ _ _ _ hlen1' hr1' hc,
      appendSection_nil,
      searchLoop_topic _ _ _ _ _ _ hlen2'
        (setLastTopic_single nm (topicText t) [c] (by simp))]
    rfl
  · show searchLoop (hs.map normalize) [[nm], ["", t]] none [] = _
    rw [searchLoop_title]
    simp only [searchLoop]
    rw [if_neg (by simp), if_neg (fun h => hlen2' h.symm),
      if_pos (by simp : (["", t] : List String).length = 2 ∧
        (["", t] : List String).head? = some "")]
    rfl
  · show searchLoop (hs.map normalize) [["", t]] none [] = _
    simp only [searchLoop]
    rw [if_neg (by simp), if_neg (fun h => hlen2' h.symm),
      if_pos (by simp : (["", t] : List String).length = 2 ∧
        (["", t] : List String).head? = some "")]

/-- Claim C5 (counterexample): a length-2 row with empty first cell whose
second cell does NOT begin with `"Topic: "` is nevertheless treated as a
topic-continuation row — extraction succeeds and assigns the raw text as
the topic instead of failing the claimed classification. -/
theorem C5_counterexample :
    parse_course_search_xml
        ⟨none, some ⟨"table",
          [scenarioHeadings, ["CIS 895 Doctoral Research"], scenarioRow,
           ["", "Hello"]]⟩⟩
      = .ok [("CIS 895 Doctoral Research",
          [{ scenarioSection with topic := some "Hello" }])] := by
  rfl

/-- Closed instance of `C5_topic_row_classification`. -/
theorem C5_witness :
    parse_course_search_xml
        ⟨none, some ⟨"table",
          [scenarioHeadings, ["CIS 895 Doctoral Research"], scenarioRow,
           ["", "Topic: Distributed Systems"]]⟩⟩
      = .ok [("CIS 895 Doctoral Research",
          [{ scenarioSection with
              topic := some (topicText "Topic: Distributed Systems") }])] ∧
    parse_course_search_xml
        ⟨none, some ⟨"table",
          [scenarioHeadings, ["CIS 895 Doctoral Research"],
           ["", "Topic: Distributed Systems"]]⟩⟩
      = .error .indexError ∧
    parse_course_search_xml
        ⟨none, some ⟨"table",
          [scenarioHeadings, ["", "Topic: Distributed Systems"]]⟩⟩
      = .error .assertionError :=
  C5_topic_row_classification scenarioHeadings "CIS 895 Doctoral Research"
    "Topic: Distributed Systems" scenarioRow scenarioSection
    (by decide) (by decide) (by decide) rfl

/-- Lemma: `mkCSR` always constructs the section with `topic = None`. -/
theorem mkCSR_ok_topic (nm : String)
    (kw : List (String × Option String)) (c : CourseSearchResult)
    (hc : mkCSR nm kw = .ok c) : c.topic = none := by
  unfold mkCSR at hc
  split at hc
  · exact absurd hc (by simp)
  · split at hc
    · exact absurd hc (by simp)
    · cases hc
      rfl

/-- Claim C6: in a well-formed table where a course-title row is followed
by two section rows and then a topic row, the topic is set on the second
(most recently appended) section only; the first section's topic remains
unset (`none`). -/
theorem C6_topic_last_section
    (hs : List String) (nm t : String) (r1 r2 : List String)
    (c1 c2 : CourseSearchResult)
    (hlen1 : hs.length ≠ 1) (hlen2 : hs.length ≠ 2)
    (hr1 : r1.length = hs.length) (hr2 : r2.length = hs.length)
    (hc1 : mkCSR nm (kwPairs (hs.map normalize) r1) = .ok c1)
    (hc2 : mkCSR nm (kwPairs (hs.map normalize) r2) = .ok c2) :
    parse_course_search_xml
        ⟨none, some ⟨"table", [hs, [nm], r1, r2, ["", t]]⟩⟩
      = .ok [(nm, [c1, { c2 with topic := some (topicText t) }])] ∧
    c1.topic = none := by
  have hmap : (hs.map normalize).length = hs.length := hs.length_map normalize
  have hlen1a : r1.length ≠ 1 := fun h => hlen1 (hr1 ▸ h)
  have hlen1b : r2.length ≠ 1 := fun h => hlen1 (hr2 ▸ h)
  have hlen2' : (hs.map normalize).length ≠ 2 := fun h => hlen2 (hmap ▸ h)
  have hr1' : r1.length = (hs.map normalize).length := by rw [hmap, hr1]
  have hr2' : r2.length = (hs.map normalize).length := by rw [hmap, hr2]
  refine ⟨?_, mkCSR_ok_topic _ _ _ hc1⟩
  show searchLoop (hs.map normalize) [[nm], r1, r2, ["", t]] none [] = _
  rw [searchLoop_title, searchLoop_section _ _ _ _ _ _ hlen1a hr1' hc1,
    appendSection_nil, searchLoop_section _ _ _ _ _ _ hlen1b hr2' hc2,
    appendSection_single,
    searchLoop_topic _ _ _ _ _ _ hlen2'
      (setLastTopic_single nm (topicText t) ([c1] ++ [c2]) (by simp))]
  rfl

/-- Closed instance of `C6_topic_last_section`. -/
theorem C6_witness :
    parse_course_search_xml
        ⟨none, some ⟨"table",
          [scenarioHeadings, ["CIS 895 Doctoral Research"], scenarioRow,
           scenarioRow, ["", "Topic: Distributed Systems"]]⟩⟩
      = .ok [("CIS 895 Doctoral Research",
          [scenarioSection,
           { scenarioSection with
              topic := some (topicText "Topic: Distributed Systems") }])] ∧
    scenarioSection.topic = none :=
  C6_topic_last_section scenarioHeadings "CIS 895 Doctoral Research"
    "Topic: Distributed Systems" scenarioRow scenarioRow
    scenarioSection scenarioSection
    (by decide) (by decide) (by decide) (by decide) rfl rfl

theorem updLastTopic_ne_nil (t : String) (l : List CourseSearchResult)
    (h : l ≠ []) : updLastTopic t l ≠ [] := by
  cases l with
  | nil => exact absurd rfl h
  | cons c cs => cases cs <;> simp [updLastTopic]

theorem appendSection_nonempty (g : CourseGroup) (nm : String)
    (c : CourseSearchResult) (h : ∀ e ∈ g, e.2 ≠ []) :
    ∀ e ∈ appendSection g nm c, e.2 ≠ [] := by
  intro e he
  unfold appendSection at he
  split at he
  · obtain ⟨p, hp, rfl⟩ := List.mem_map.mp he
    by_cases hb : p.1 == nm
    · simp only [hb, if_true]
      simp
    · simp only [hb]
      simp only [Bool.false_eq_true, if_false]
      exact h p hp
  · rcases List.mem_append.mp he with hg | hs
    · exact h e hg
    · have : e = (nm, [c]) := by simpa using hs
      subst this
      simp

theorem setLastTopic_nonempty (g g2 : CourseGroup) (nm t : String)
    (h : ∀ e ∈ g, e.2 ≠ []) (hset : setLastTopic g nm t = .ok g2) :
    ∀ e ∈ g2, e.2 ≠ [] := by
  unfold setLastTopic at hset
  split at hset
  · exact absurd hset (by simp)
  · split at hset
    · exact absurd hset (by simp)
    · cases hset
      intro e he
      obtain ⟨p, hp, rfl⟩ := List.mem_map.mp he
      by_cases hb : p.1 == nm
      · simp only [hb, if_true]
        exact updLastTopic_ne_nil t p.2 (h p hp)
      · simp only [hb]
        simp only [Bool.false_eq_true, if_false]
        exact h p hp

theorem searchLoop_nonempty (nhs : List String) :
    ∀ (rows : List (List String)) (name : Option String)
      (g g2 : CourseGroup), (∀ e ∈ g, e.2 ≠ []) →
      searchLoop nhs rows name g = .ok g2 → ∀ e ∈ g2, e.2 ≠ [] := by
  intro rows
  induction rows with
  | nil =>
    intro name g g2 h hloop
    simp only [searchLoop] at hloop
    cases hloop
    exact h
  | cons r rs ih =>
    intro name g g2 h hloop
    simp only [searchLoop] at hloop
    split at hloop
    · exact ih _ _ _ h hloop
    · split at hloop
      · split at hloop
        · exact absurd hloop (by simp)
        · split at hloop
          · exact absurd hloop (by simp)
          · exact ih _ _ _ (appendSection_nonempty _ _ _ h) hloop
      · split at hloop
        · split at hloop
          · exact absurd hloop (by simp)
          · split at hloop
            · exact absurd hloop (by simp)
            · exact ih _ _ _ (setLastTopic_nonempty _ _ _ _ h (by assumption))
                hloop
        · split at hloop
          · exact ih _ _ _ h hloop
          · exact absurd hloop (by simp)

/-- Claim C9: whenever `extract_search` returns normally, every course-name
key of the returned group maps to a non-empty list of sections. -/
theorem C9_groups_nonempty (env : SearchEnvelope) (g : CourseGroup)
    (h : parse_course_search_xml env = .ok g) :
    ∀ e ∈ g, e.2 ≠ [] := by
  unfold parse_course_search_xml at h
  split at h
  · split at h
    · cases h
      intro e he
      simp at he
    · exact absurd h (by simp)
  · split at h
    · exact absurd h (by simp)
    · split at h
      · split at h
        · exact absurd h (by simp)
        · exact searchLoop_nonempty _ _ _ _ _ (by simp) h
      · exact absurd h (by simp)

/-- Closed instance of `C9_groups_nonempty`. -/
theorem C9_witness :
    (("CIS 895 Doctoral Research", [scenarioSection]) :
        String × List CourseSearchResult).2 ≠ [] :=
  C9_groups_nonempty
    ⟨none, some ⟨"table",
      [scenarioHeadings, ["CIS 895 Doctoral Research"], scenarioRow]⟩⟩
    [("CIS 895 Doctoral Research", [scenarioSection])] rfl
    ("CIS 895 Doctoral Research", [scenarioSection]) (by simp)

theorem parse_details_reduces (env : DetailEnvelope)
    (frag : DetailFragment) (tds : List (Option String)) (ps ps2 : Props)
    (henv : env.errorCode = none) (hcd : env.classDetails = some frag)
    (htag : frag.tag = "div") (hft : frag.firstTable = some tds)
    (hscan : scanProps tds = .ok ps)
    (hdesc : descScan frag.descCells ps = .ok ps2) :
    parse_course_details_xml env
      = mkCDR (ps2.map (fun p => (normalize p.1, p.2))) := by
  simp only [parse_course_details_xml, henv, hcd, htag, hft, hscan, hdesc,
    if_true]

theorem mkCDR_unknown_key (kw : Props) (q : String × String)
    (hq : q ∈ kw) (hbad : detailFields.contains q.1 = false) :
    mkCDR kw = .error .typeError := by
  have hany : kw.any (fun p => !(detailFields.contains p.1)) = true :=
    List.any_eq_true.mpr ⟨q, hq,
      by simpa only [Bool.not_eq_true'] using hbad⟩
  unfold mkCDR
  rw [if_pos hany]

theorem mkCDR_missing_key (kw : Props) (f : String)
    (hf : f ∈ detailFields) (hmiss : ∀ p ∈ kw, p.1 ≠ f) :
    mkCDR kw = .error .typeError := by
  unfold mkCDR
  cases h1 : kw.any (fun p => !(detailFields.contains p.1)) with
  | true => rw [if_pos rfl]
  | false =>
    rw [if_neg (by simp)]
    have h2 : detailFields.any (fun f2 => !(kw.any (fun p => p.1 == f2)))
        = true := by
      refine List.any_eq_true.mpr ⟨f, hf, ?_⟩
      simp only [Bool.not_eq_true']
      refine List.any_eq_false.mpr ?_
      intro p hp
      simpa using hmiss p hp
    rw [if_pos h2]

/-- Claim C2 (amended): an unrecognized normalized label key present in the
scanned label/value set is NOT discarded — the `DetailRecord`
construction raises `TypeError`, so `extract_details` fails on any
fragment that contains an extra label besides the recognized ones. -/
theorem C2_unrecognized_key_errors (env : DetailEnvelope)
    (frag : DetailFragment) (tds : List (Option String)) (ps ps2 : Props)
    (p : String × String)
    (henv : env.errorCode = none) (hcd : env.classDetails = some frag)
    (htag : frag.tag = "div") (hft : frag.firstTable = some tds)
    (hscan : scanProps tds = .ok ps)
    (hdesc : descScan frag.descCells ps = .ok ps2)
    (hp : p ∈ ps2)
    (hbad : detailFields.contains (normalize p.1) = false) :
    parse_course_details_xml env = .error .typeError := by
  rw [parse_details_reduces env frag tds ps ps2 henv hcd htag hft hscan
    hdesc]
  exact mkCDR_unknown_key _ (normalize p.1, p.2)
    (List.mem_map_of_mem _ hp) hbad

/-- Claim C2 (counterexample): a detail fragment containing all recognized
labels plus the extra label `"Bogus:"` makes `extract_details` raise
`TypeError` instead of discarding the extra key and succeeding. -/
theorem C2_counterexample :
    parse_course_details_xml
        ⟨none, some ⟨"div",
          some (detailLabelTds ++ [some "Bogus:", some "x"]),
          [["Course Description:", "An introduction to..."]]⟩⟩
      = .error .typeError := by
  rfl

/-- Closed instance of `C2_unrecognized_key_errors`. -/
theorem C2_witness :
    parse_course_details_xml
        ⟨none, some ⟨"div",
          some (detailLabelTds ++ [some "Bogus:", some "x"]),
          [["Course Description:", "An introduction to..."]]⟩⟩
      = .error .typeError :=
  C2_unrecognized_key_errors
    ⟨none, some ⟨"div",
      some (detailLabelTds ++ [some "Bogus:", some "x"]),
      [["Course Description:", "An introduction to..."]]⟩⟩
    ⟨"div", some (detailLabelTds ++ [some "Bogus:", some "x"]),
      [["Course Description:", "An introduction to..."]]⟩
    (detailLabelTds ++ [some "Bogus:", some "x"])
    (detailLabelProps ++ [("Bogus", "x")])
    (detailLabelProps ++ [("Bogus", "x"),
      ("Description", "An introduction to...")])
    ("Bogus", "x") rfl rfl rfl rfl rfl rfl (by decide) (by decide)

/-- Claim C3 (amended): a recognized `DetailRecord` field whose label does
not appear on the page is NOT left as "no value" — the construction
raises `TypeError` for the missing required keyword, so `extract_details`
fails when a recognized label is absent. -/
theorem C3_missing_field_errors (env : DetailEnvelope)
    (frag : DetailFragment) (tds : List (Option String)) (ps ps2 : Props)
    (f : String)
    (henv : env.errorCode = none) (hcd : env.classDetails = some frag)
    (htag : frag.tag = "div") (hft : frag.firstTable = some tds)
    (hscan : scanProps tds = .ok ps)
    (hdesc : descScan frag.descCells ps = .ok ps2)
    (hf : f ∈ detailFields)
    (hmiss : ∀ p ∈ ps2, normalize p.1 ≠ f) :
    parse_course_details_xml env = .error .typeError := by
  rw [parse_details_reduces env frag tds ps ps2 henv hcd htag hft hscan
    hdesc]
  refine mkCDR_missing_key _ f hf ?_
  intro q hq
  obtain ⟨p, hp, rfl⟩ := List.mem_map.mp hq
  exact hmiss p hp

/-- Claim C3 (counterexample): a detail fragment whose summary table omits
the `Session:` label (all other recognized labels present) makes
`extract_details` raise `TypeError`; the `session` field is not left as
"no value". -/
theorem C3_counterexample :
    parse_course_details_xml
        ⟨none, some ⟨"div", some (detailLabelTds.drop 2),
          [["Course Description:", "desc"]]⟩⟩
      = .error .typeError := by
  rfl

/-- Closed instance of `C3_missing_field_errors`. -/
theorem C3_witness :
    parse_course_details_xml
        ⟨none, some ⟨"div", some (detailLabelTds.drop 2),
          [["Course Description:", "desc"]]⟩⟩
      = .error .typeError :=
  C3_missing_field_errors
    ⟨none, some ⟨"div", some (detailLabelTds.drop 2),
      [["Course Description:", "desc"]]⟩⟩
    ⟨"div", some (detailLabelTds.drop 2), [["Course Description:", "desc"]]⟩
    (detailLabelTds.drop 2) (detailLabelProps.drop 1)
    (detailLabelProps.drop 1 ++ [("Description", "desc")])
    "session" rfl rfl rfl rfl rfl rfl (by decide) (by decide)

theorem descScan_mem_error :
    ∀ (cells : List (List String)) (ps : Props),
      ["Course Description:"] ∈ cells →
      descScan cells ps = .error .indexError := by
  intro cells
  induction cells with
  | nil =>
    intro ps h
    simp at h
  | cons cell rest ih =>
    intro ps h
    rcases List.mem_cons.mp h with hc | hc
    · cases hc
      simp [descScan]
    · cases cell with
      | nil => simpa [descScan] using ih ps hc
      | cons first others =>
        by_cases hf : first = "Course Description:"
        · cases others with
          | nil => simp [descScan, hf]
          | cons v vs =>
            simp only [descScan, hf, if_true]
            exact ih _ hc
        · simp only [descScan, hf]
          simp only [if_false]
          exact ih _ hc

/-- Claim C10: if a content-area cell has `"Course Description:"` as its
first non-blank text run but no second non-blank run, `extract_details`
raises `IndexError` (the `items[1]` access is only guarded by the
existence of `items[0]`). -/
theorem C10_description_index_error (env : DetailEnvelope)
    (frag : DetailFragment) (tds : List (Option String)) (ps : Props)
    (henv : env.errorCode = none) (hcd : env.classDetails = some frag)
    (htag : frag.tag = "div") (hft : frag.firstTable = some tds)
    (hscan : scanProps tds = .ok ps)
    (hcell : ["Course Description:"] ∈ frag.descCells) :
    parse_course_details_xml env = .error .indexError := by
  simp only [parse_course_details_xml, henv, hcd, htag, hft, hscan,
    if_true, descScan_mem_error frag.descCells ps hcell]

/-- Closed instance of `C10_description_index_error`. -/
theorem C10_witness :
    parse_course_details_xml
        ⟨none, some ⟨"div", some detailLabelTds,
          [["Course Description:"]]⟩⟩
      = .error .indexError :=
  C10_description_index_error
    ⟨none, some ⟨"div", some detailLabelTds, [["Course Description:"]]⟩⟩
    ⟨"div", some detailLabelTds, [["Course Description:"]]⟩
    detailLabelTds detailLabelProps rfl rfl rfl rfl rfl (by decide)

end CampusNet
